import Mathlib

/-!
Shallow embedding of the VGA text-mode console driver and the keyboard
scancode decoder of this repository.

The console driver embedded here is the full-featured one (the file with
`terminal_scroll`, `terminal_update_cursor` and the `\n`/`\t`/`\b` handling
in `terminal_putchar`); the repository also contains two earlier tutorial
stages of the same driver, which the claims do not reference.

Machine integers are modelled as `Nat` with explicit reductions where the
C code can overflow (`% 2^32` on the `size_t` tab arithmetic, `% 2^16` on
the hardware-cursor position, `% 256` on bytes).  The VGA buffer is a
`uint16_t*` into which the code writes at a computed flat index, so it is
modelled as a total function `Nat → Nat` over flat cell addresses; the
2000 cells of the 80×25 grid live at addresses `0 ..< 2000`.

Port output (`outb`) is observable behaviour, so `terminal_putchar`
returns, next to the new console state, the list of `(port, value)` writes
the call performs.
-/

namespace OS

def VGA_WIDTH : Nat := 80

def VGA_HEIGHT : Nat := 25

/-- `vga_entry_color(fg, bg) = fg | bg << 4`, truncated to `uint8_t`. -/
def vga_entry_color (fg bg : Nat) : Nat := (fg ||| (bg <<< 4)) % 256

/-- `vga_entry(uc, color) = (uint16_t) uc | (uint16_t) color << 8`; the
`unsigned char` and `uint8_t` parameters reduce the arguments mod 256. -/
def vga_entry (uc color : Nat) : Nat := (uc % 256) ||| ((color % 256) <<< 8)

/-- Console state: cursor position, colour attribute, and the flat VGA
cell memory (`terminal_row`, `terminal_column`, `terminal_color`,
`terminal_buffer`). -/
structure TermState where
  row : Nat
  col : Nat
  color : Nat
  buf : Nat → Nat

/-- The default colour set by the driver at startup:
`vga_entry_color(VGA_COLOR_LIGHT_RED, VGA_COLOR_DARK_GREY)`. -/
def default_color : Nat := vga_entry_color 12 8

/-- `terminal_initialize`: zero the cursor, set the default colour, blank
every one of the `HEIGHT*WIDTH` grid cells.  (The call also synchronizes
the hardware cursor; port traces are only tracked for `terminal_putchar`,
which the trace claims are about.) -/
def terminal_init (s : TermState) : TermState :=
  { row := 0, col := 0, color := default_color,
    buf := fun i => if i < VGA_HEIGHT * VGA_WIDTH then vga_entry 32 default_color else s.buf i }

/-- The initialized console state (initial memory contents are irrelevant:
`terminal_init` overwrites every grid cell). -/
def initState : TermState := terminal_init { row := 0, col := 0, color := 0, buf := fun _ => 0 }

/-- `terminal_update_cursor(x, y)`: the four `outb` port writes that
program the hardware cursor to the flat position `y*VGA_WIDTH + x`
(computed as a `uint16_t`). -/
def terminal_update_cursor (x y : Nat) : List (Nat × Nat) :=
  [(0x3D4, 0x0F), (0x3D5, ((y * VGA_WIDTH + x) % 65536) % 256),
   (0x3D4, 0x0E), (0x3D5, (((y * VGA_WIDTH + x) % 65536) >>> 8) % 256)]

/-- `terminal_scroll`: copy cell `i+WIDTH` into cell `i` for every
`i < (HEIGHT-1)*WIDTH`, then blank the last row at the current colour.
Touches neither the cursor nor cells outside the grid. -/
def scrollBuf (s : TermState) : Nat → Nat := fun i =>
  if i < (VGA_HEIGHT - 1) * VGA_WIDTH then s.buf (i + VGA_WIDTH)
  else if i < VGA_HEIGHT * VGA_WIDTH then vga_entry 32 s.color
  else s.buf i

def terminal_scroll (s : TermState) : TermState :=
  { s with buf := scrollBuf s }

/-- `terminal_putchar(c)`: one transition of the console state machine.
Returns the new state together with the port writes the call performs.
The input is the byte value of the `char` argument. -/
def terminal_putchar (c : Nat) (s : TermState) : TermState × List (Nat × Nat) :=
  if c = 10 then
    -- newline: terminal_column = 0; if (++terminal_row == VGA_HEIGHT) { scroll; row = HEIGHT-1 }
    let s1 : TermState := { s with col := 0, row := s.row + 1 }
    let s2 : TermState :=
      if s1.row = VGA_HEIGHT then { terminal_scroll s1 with row := VGA_HEIGHT - 1 } else s1
    (s2, terminal_update_cursor s2.col s2.row)
  else if c = 9 then
    -- tab: terminal_column = (terminal_column + 4) & ~3 (size_t arithmetic);
    -- if (terminal_column >= VGA_WIDTH) wrap as a regular character would
    let s1 : TermState := { s with col := ((s.col + 4) % 4294967296) &&& 4294967292 }
    let s2 : TermState :=
      if s1.col ≥ VGA_WIDTH then
        let s1a : TermState := { s1 with col := 0, row := s1.row + 1 }
        if s1a.row = VGA_HEIGHT then { terminal_scroll s1a with row := VGA_HEIGHT - 1 } else s1a
      else s1
    (s2, terminal_update_cursor s2.col s2.row)
  else if c = 8 then
    -- backspace: early return at (0,0) skips terminal_update_cursor
    if s.row = 0 ∧ s.col = 0 then (s, [])
    else if s.col > 0 then
      let bspIdx := s.row * VGA_WIDTH + (s.col - 1)
      let nbuf : Nat → Nat := fun i => if i = bspIdx then vga_entry 32 s.color else s.buf i
      let s1 : TermState := { s with col := s.col - 1, buf := nbuf }
      (s1, terminal_update_cursor s1.col s1.row)
    else
      -- terminal_row--; terminal_column = VGA_WIDTH; blank the cell at the new index
      let bspIdx := (s.row - 1) * VGA_WIDTH + VGA_WIDTH
      let nbuf : Nat → Nat := fun i => if i = bspIdx then vga_entry 32 s.color else s.buf i
      let s1 : TermState := { s with row := s.row - 1, col := VGA_WIDTH, buf := nbuf }
      (s1, terminal_update_cursor s1.col s1.row)
  else
    -- regular character: write the packed cell at the cursor, then advance
    let idx := s.row * VGA_WIDTH + s.col
    let nbuf : Nat → Nat := fun i => if i = idx then vga_entry c s.color else s.buf i
    let s1 : TermState := { s with buf := nbuf, col := s.col + 1 }
    let s2 : TermState :=
      if s1.col = VGA_WIDTH then
        let s1a : TermState := { s1 with col := 0, row := s1.row + 1 }
        if s1a.row = VGA_HEIGHT then { terminal_scroll s1a with row := VGA_HEIGHT - 1 } else s1a
      else s1
    (s2, terminal_update_cursor s2.col s2.row)

/-- `terminal_write(data, size)`: apply `terminal_putchar` to each byte in
order. -/
def terminal_write (cs : List Nat) (s : TermState) : TermState :=
  cs.foldl (fun t c => (terminal_putchar c t).1) s

/-- A byte handled by the regular-character branch of `terminal_putchar`
(not `\n`, `\t` or `\b`). -/
def isRegular (c : Nat) : Prop := c ≠ 10 ∧ c ≠ 9 ∧ c ≠ 8

instance (c : Nat) : Decidable (isRegular c) := by
  unfold isRegular; infer_instance

/-- Decoder modifier state of the `kernel_main` loop:
`is_shift_pressed` and `is_caps_locked`. -/
structure KbdState where
  is_shift_pressed : Bool
  is_caps_locked : Bool
deriving DecidableEq

/-- Modelled from the spec: `scancode_to_ascii` is declared in the missing
`keyboard.h` and its definition is not part of the repository sources;
per the spec it looks up the translation-table entry for the scancode and
selects the uppercase member when the passed flag is true, else the
lowercase member, with 0 as the "no character" sentinel.  The table is a
parameter mapping a scancode to its (lowercase, uppercase) pair. -/
def scancode_to_ascii (table : Nat → Nat × Nat) (sc : Nat) (upper : Bool) : Nat :=
  if upper then (table sc).2 else (table sc).1

/-- One iteration of the `kernel_main` decoder loop on scancode `sc`:
updates the modifier state and returns the character forwarded to
`terminal_putchar`, if any.  `s2a` is the external `scancode_to_ascii`
translation function. -/
def kbd_step (s2a : Nat → Bool → Nat) (st : KbdState) (sc : Nat) :
    KbdState × Option Nat :=
  if sc = 0x2A ∨ sc = 0x36 then
    ({ st with is_shift_pressed := true }, none)
  else if sc = 0xAA ∨ sc = 0xB6 then
    ({ st with is_shift_pressed := false }, none)
  else if sc = 0x3A then
    ({ st with is_caps_locked := !st.is_caps_locked }, none)
  else if sc < 0x80 then
    let c := s2a sc (st.is_shift_pressed ^^ st.is_caps_locked)
    (st, if c ≠ 0 then some c else none)
  else
    (st, none)

/-- A console state used to exhibit the backspace bug: cursor at
`(row 2, col 0)`, cell contents `3000 + i` so that overwrites are visible. -/
def bspState : TermState :=
  { row := 2, col := 0, color := default_color, buf := fun i => 3000 + i }

/-- C1: the claim says `put_char` of backspace at `(row 2, col 0)` moves the
cursor to `(row 1, col WIDTH-1)` and blanks that cell.  The code instead
sets `cursor_col` to `WIDTH` (80) and blanks the cell at flat index
`1*WIDTH + WIDTH = 160`, which is the cell at `(row 2, col 0)` — the cell
at `(row 1, col 79)` (flat index 159) keeps its old value.  The claim is
the evident intent (`terminal_column = VGA_WIDTH` leaves the column out of
range and defeats the `++terminal_column == VGA_WIDTH` wrap check ever
after); the code is a slip.  The `\b`-at-`(0,0)` no-op half of the claim
does hold, as the last two conjuncts record. -/
theorem C1_backspace_col0_bug :
    (terminal_putchar 8 bspState).1.row = 1 ∧
    (terminal_putchar 8 bspState).1.col = VGA_WIDTH ∧
    (terminal_putchar 8 bspState).1.buf 160 = vga_entry 32 default_color ∧
    (terminal_putchar 8 bspState).1.buf 159 = 3000 + 159 ∧
    (terminal_putchar 8 initState).1 = initState ∧
    (terminal_putchar 8 initState).2 = [] := by
  refine ⟨by decide, by decide, by decide, by decide, rfl, rfl⟩

/-- C2: the claim states the invariants `cursor_col ≤ WIDTH` (with equality
only transient, resolved before the next grid write) and that every grid
write lands in the row the cursor occupies.  The byte sequence
`['\n', '\b', 'a', 'b']` from the initialized state refutes this: after
`'\n','\b'` the column is stuck at `WIDTH` (80), the following `'a'`
leaves the column at 81 > WIDTH, and the `'b'` is written at flat index 81
— the cell at `(row 1, col 1)` — while the cursor is on row 0. -/
theorem C2_invariant_bug :
    (terminal_write [10, 8] initState).col = VGA_WIDTH ∧
    (terminal_write [10, 8, 97] initState).col = VGA_WIDTH + 1 ∧
    (terminal_write [10, 8, 97] initState).row = 0 ∧
    (terminal_write [10, 8, 97, 98] initState).col = VGA_WIDTH + 2 ∧
    (terminal_write [10, 8, 97, 98] initState).row = 0 ∧
    (terminal_write [10, 8, 97, 98] initState).buf 81 = vga_entry 98 default_color := by
  refine ⟨by decide, by decide, by decide, by decide, by decide, by decide⟩

/-- C3 counterexample: `put_char('\b')` on the initialized state (cursor at
`(0,0)`) returns early and performs no port writes at all, while the
`terminal_update_cursor` sequence it is claimed to perform is nonempty. -/
theorem C3_counterexample :
    (terminal_putchar 8 initState).2 = [] ∧
    terminal_update_cursor initState.col initState.row ≠ [] :=
  ⟨rfl, by decide⟩

/-- C3 (amended): every `put_char` call except backspace in the state
`(row 0, col 0)` ends by emitting exactly the `terminal_update_cursor`
port-write sequence for the cursor position of the state after the call;
the excluded case returns early, emitting nothing (and leaving the state
unchanged, so the hardware cursor stays correct). -/
theorem C3_putchar_syncs_cursor (s : TermState) (c : Nat)
    (h : ¬(c = 8 ∧ s.row = 0 ∧ s.col = 0)) :
    (terminal_putchar c s).2 =
      terminal_update_cursor (terminal_putchar c s).1.col (terminal_putchar c s).1.row := by
  unfold terminal_putchar
  split_ifs with h10 h9 h8 hz hpos <;> first
    | rfl
    | exact absurd ⟨h8, hz.1, hz.2⟩ h

theorem C3_putchar_syncs_cursor_witness :
    (terminal_putchar 97 initState).2 =
      terminal_update_cursor (terminal_putchar 97 initState).1.col
        (terminal_putchar 97 initState).1.row :=
  C3_putchar_syncs_cursor initState 97 (by decide)

/-- C6: after `terminal_scroll`, row `y` of the grid equals old row `y+1`
for every `y < HEIGHT-1`, the last row consists of blank cells packed with
the colour current at scroll time, and the cursor fields are untouched. -/
theorem C6_scroll_shifts_rows (s : TermState) (y x : Nat)
    (hy : y < VGA_HEIGHT - 1) (hx : x < VGA_WIDTH) :
    (terminal_scroll s).buf (y * VGA_WIDTH + x) = s.buf ((y + 1) * VGA_WIDTH + x) ∧
    (terminal_scroll s).buf ((VGA_HEIGHT - 1) * VGA_WIDTH + x) = vga_entry 32 s.color ∧
    (terminal_scroll s).row = s.row ∧
    (terminal_scroll s).col = s.col := by
  simp only [VGA_HEIGHT, VGA_WIDTH] at hy hx
  refine ⟨?_, ?_, rfl, rfl⟩
  · show scrollBuf s (y * VGA_WIDTH + x) = _
    unfold scrollBuf
    simp only [VGA_HEIGHT, VGA_WIDTH]
    rw [if_pos (by omega)]
    congr 1
    omega
  · show scrollBuf s ((VGA_HEIGHT - 1) * VGA_WIDTH + x) = _
    unfold scrollBuf
    simp only [VGA_HEIGHT, VGA_WIDTH]
    rw [if_neg (by omega), if_pos (by omega)]

theorem C6_scroll_shifts_rows_witness :
    (terminal_scroll initState).buf (0 * VGA_WIDTH + 0) = initState.buf ((0 + 1) * VGA_WIDTH + 0) ∧
    (terminal_scroll initState).buf ((VGA_HEIGHT - 1) * VGA_WIDTH + 0) = vga_entry 32 initState.color ∧
    (terminal_scroll initState).row = initState.row ∧
    (terminal_scroll initState).col = initState.col :=
  C6_scroll_shifts_rows initState 0 0 (by decide) (by decide)

/-- C8: the decoder loop sets `is_shift_pressed` on shift make codes and
clears it on shift break codes, toggles `is_caps_locked` on the caps-lock
make code `0x3A`, ignores the caps-lock break code `0xBA`, and treats
every other scancode `≥ 0x80` as a no-op that changes no modifier flag and
forwards no character to the console. -/
theorem C8_modifier_state (s2a : Nat → Bool → Nat) (st : KbdState) (sc : Nat) :
    ((sc = 0x2A ∨ sc = 0x36) →
      kbd_step s2a st sc = ({ st with is_shift_pressed := true }, none)) ∧
    ((sc = 0xAA ∨ sc = 0xB6) →
      kbd_step s2a st sc = ({ st with is_shift_pressed := false }, none)) ∧
    (sc = 0x3A →
      kbd_step s2a st sc = ({ st with is_caps_locked := !st.is_caps_locked }, none)) ∧
    (kbd_step s2a st 0xBA = (st, none)) ∧
    (0x80 ≤ sc → sc ≠ 0xAA → sc ≠ 0xB6 → kbd_step s2a st sc = (st, none)) := by
  refine ⟨?_, ?_, ?_, ?_, ?_⟩
  · intro h
    unfold kbd_step
    rw [if_pos h]
  · intro h
    unfold kbd_step
    rw [if_neg (by omega), if_pos h]
  · intro h
    unfold kbd_step
    rw [if_neg (by omega), if_neg (by omega), if_pos h]
  · unfold kbd_step
    rw [if_neg (by decide), if_neg (by decide), if_neg (by decide), if_neg (by decide)]
  · intro hge h1 h2
    unfold kbd_step
    rw [if_neg (by omega), if_neg (by simp [h1, h2]), if_neg (by omega), if_neg (by omega)]

theorem C8_modifier_state_witness :
    ((0x2A = 0x2A ∨ 0x2A = 0x36) →
      kbd_step (fun _ _ => 0) ⟨false, false⟩ 0x2A =
        ({ is_shift_pressed := true, is_caps_locked := false }, none)) ∧
    ((0x2A = 0xAA ∨ 0x2A = 0xB6) →
      kbd_step (fun _ _ => 0) ⟨false, false⟩ 0x2A =
        ({ is_shift_pressed := false, is_caps_locked := false }, none)) ∧
    (0x2A = 0x3A →
      kbd_step (fun _ _ => 0) ⟨false, false⟩ 0x2A =
        ({ is_shift_pressed := false, is_caps_locked := true }, none)) ∧
    (kbd_step (fun _ _ => 0) ⟨false, false⟩ 0xBA = (⟨false, false⟩, none)) ∧
    (0x80 ≤ 0x2A → 0x2A ≠ 0xAA → 0x2A ≠ 0xB6 →
      kbd_step (fun _ _ => 0) ⟨false, false⟩ 0x2A = (⟨false, false⟩, none)) :=
  C8_modifier_state (fun _ _ => 0) ⟨false, false⟩ 0x2A

/-- C9: for a non-modifier make scancode the decoder looks up the
translation and selects the uppercase member exactly when
`is_shift_pressed XOR is_caps_locked` holds, so decoding with both
modifiers active produces the same output as decoding with both inactive.
(`scancode_to_ascii` itself is modelled from the spec, its source being
outside the repository; the XOR combination is the code of
`kernel_main`.) -/
theorem C9_xor_case_selection (table : Nat → Nat × Nat) (st : KbdState) (sc : Nat)
    (hlt : sc < 0x80) (h1 : sc ≠ 0x2A) (h2 : sc ≠ 0x36) (h3 : sc ≠ 0x3A) :
    (kbd_step (scancode_to_ascii table) st sc =
      (st,
        if (if st.is_shift_pressed ^^ st.is_caps_locked then (table sc).2 else (table sc).1) ≠ 0
        then some (if st.is_shift_pressed ^^ st.is_caps_locked then (table sc).2 else (table sc).1)
        else none)) ∧
    (kbd_step (scancode_to_ascii table) ⟨true, true⟩ sc).2 =
      (kbd_step (scancode_to_ascii table) ⟨false, false⟩ sc).2 := by
  have n1 : ¬(sc = 0x2A ∨ sc = 0x36) := by simp [h1, h2]
  have n2 : ¬(sc = 0xAA ∨ sc = 0xB6) := by omega
  constructor
  · simp only [kbd_step, scancode_to_ascii, if_neg n1, if_neg n2, if_neg h3, if_pos hlt]
  · simp only [kbd_step, scancode_to_ascii, if_neg n1, if_neg n2, if_neg h3, if_pos hlt]
    rfl

theorem C9_xor_case_selection_witness :
    (kbd_step (scancode_to_ascii (fun sc => if sc = 0x1E then (97, 65) else (0, 0)))
        ⟨false, false⟩ 0x1E =
      (⟨false, false⟩,
        if (if (false : Bool) ^^ false
            then ((fun sc => if sc = 0x1E then ((97 : Nat), (65 : Nat)) else (0, 0)) 0x1E).2
            else ((fun sc => if sc = 0x1E then ((97 : Nat), (65 : Nat)) else (0, 0)) 0x1E).1) ≠ 0
        then some (if (false : Bool) ^^ false
            then ((fun sc => if sc = 0x1E then ((97 : Nat), (65 : Nat)) else (0, 0)) 0x1E).2
            else ((fun sc => if sc = 0x1E then ((97 : Nat), (65 : Nat)) else (0, 0)) 0x1E).1)
        else none)) ∧
    (kbd_step (scancode_to_ascii (fun sc => if sc = 0x1E then (97, 65) else (0, 0)))
        ⟨true, true⟩ 0x1E).2 =
      (kbd_step (scancode_to_ascii (fun sc => if sc = 0x1E then (97, 65) else (0, 0)))
        ⟨false, false⟩ 0x1E).2 :=
  C9_xor_case_selection (fun sc => if sc = 0x1E then (97, 65) else (0, 0))
    ⟨false, false⟩ 0x1E (by decide) (by decide) (by decide) (by decide)

/-- A console state whose grid cells all hold the blank cell packed with
colour `c`, with `c` the current colour. -/
def BlankGrid (s : TermState) (c : Nat) : Prop :=
  s.color = c ∧ ∀ i, i < VGA_HEIGHT * VGA_WIDTH → s.buf i = vga_entry 32 c

theorem scroll_blank {s : TermState} {c : Nat} (h : BlankGrid s c) :
    BlankGrid (terminal_scroll s) c := by
  refine ⟨h.1, fun i hi => ?_⟩
  show scrollBuf s i = _
  unfold scrollBuf
  by_cases h1 : i < (VGA_HEIGHT - 1) * VGA_WIDTH
  · rw [if_pos h1]
    refine h.2 (i + VGA_WIDTH) ?_
    simp only [VGA_HEIGHT, VGA_WIDTH] at h1 ⊢
    omega
  · rw [if_neg h1, if_pos hi, h.1]

theorem newline_blank {s : TermState} {c : Nat} (h : BlankGrid s c) :
    BlankGrid (terminal_putchar 10 s).1 c := by
  unfold terminal_putchar
  rw [if_pos rfl]
  dsimp only []
  split_ifs with hrow
  · exact scroll_blank ⟨h.1, h.2⟩
  · exact ⟨h.1, h.2⟩

theorem write_newlines_blank : ∀ (k : Nat) (s : TermState) (c : Nat), BlankGrid s c →
    BlankGrid (terminal_write (List.replicate k 10) s) c
  | 0, s, c, h => h
  | k + 1, s, c, h => by
    have hrec :=
      write_newlines_blank k (terminal_putchar 10 s).1 c (newline_blank h)
    simpa [terminal_write, List.replicate_succ] using hrec

theorem initState_blank : BlankGrid initState default_color := by
  refine ⟨rfl, fun i hi => ?_⟩
  show (if i < VGA_HEIGHT * VGA_WIDTH then vga_entry 32 default_color else 0) = _
  rw [if_pos hi]

/-- C5: `put_char('\n')` zeroes the column and advances the row, pinning
it to `HEIGHT-1` (after scrolling) when it would reach `HEIGHT`; writing
`'\n'` exactly `HEIGHT` times from the initialized state therefore leaves
`cursor_row = HEIGHT-1` (in bounds) with the first `HEIGHT-1` rows all
blank. -/
theorem C5_newline_and_height_newlines :
    (∀ s : TermState, (terminal_putchar 10 s).1.col = 0 ∧
      (terminal_putchar 10 s).1.row =
        (if s.row + 1 = VGA_HEIGHT then VGA_HEIGHT - 1 else s.row + 1)) ∧
    (terminal_write (List.replicate VGA_HEIGHT 10) initState).row = VGA_HEIGHT - 1 ∧
    (∀ i, i < (VGA_HEIGHT - 1) * VGA_WIDTH →
      (terminal_write (List.replicate VGA_HEIGHT 10) initState).buf i =
        vga_entry 32 default_color) := by
  refine ⟨fun s => ?_, by decide, fun i hi => ?_⟩
  · unfold terminal_putchar
    rw [if_pos rfl]
    dsimp only []
    split_ifs with hrow
    · exact ⟨rfl, rfl⟩
    · exact ⟨rfl, rfl⟩
  · have hb := write_newlines_blank VGA_HEIGHT initState default_color initState_blank
    exact hb.2 i (by simp only [VGA_HEIGHT, VGA_WIDTH] at hi ⊢; omega)

theorem C5_newline_and_height_newlines_witness :
    (terminal_putchar 10 initState).1.col = 0 ∧
    (terminal_write (List.replicate VGA_HEIGHT 10) initState).buf 0 =
      vga_entry 32 default_color :=
  ⟨(C5_newline_and_height_newlines.1 initState).1,
   C5_newline_and_height_newlines.2.2 0 (by decide)⟩

/-- The tab arithmetic of the code, `(col + 4) & ~3` on `size_t`, equals
the next multiple of 4 strictly above `col`, for every in-range column. -/
theorem tab_arith : ∀ col, col < VGA_WIDTH →
    (((col + 4) % 4294967296) &&& 4294967292) = 4 * (col / 4 + 1) := by decide

/-- C7: `put_char('\t')` advances the column to the next multiple of 4
(rounding up, always advancing by at least one); if that reaches or
exceeds `WIDTH` it wraps exactly like a regular-character line wrap
(column 0, row advanced, scrolling with the row pinned to `HEIGHT-1` when
the row would reach `HEIGHT`); the tab itself writes no grid cell — the
grid changes only through the scroll in the wrap-with-scroll case. -/
theorem C7_tab (s : TermState) (hc : s.col < VGA_WIDTH) (_hr : s.row < VGA_HEIGHT) :
    (4 * (s.col / 4 + 1)) % 4 = 0 ∧
    s.col < 4 * (s.col / 4 + 1) ∧
    4 * (s.col / 4 + 1) ≤ s.col + 4 ∧
    (terminal_putchar 9 s).1.color = s.color ∧
    (4 * (s.col / 4 + 1) < VGA_WIDTH →
      (terminal_putchar 9 s).1.col = 4 * (s.col / 4 + 1) ∧
      (terminal_putchar 9 s).1.row = s.row ∧
      ∀ i, (terminal_putchar 9 s).1.buf i = s.buf i) ∧
    (VGA_WIDTH ≤ 4 * (s.col / 4 + 1) →
      (terminal_putchar 9 s).1.col = 0 ∧
      (s.row + 1 < VGA_HEIGHT →
        (terminal_putchar 9 s).1.row = s.row + 1 ∧
        ∀ i, (terminal_putchar 9 s).1.buf i = s.buf i) ∧
      (s.row + 1 = VGA_HEIGHT →
        (terminal_putchar 9 s).1.row = VGA_HEIGHT - 1 ∧
        ∀ i, (terminal_putchar 9 s).1.buf i = scrollBuf s i)) := by
  have harith := tab_arith s.col hc
  refine ⟨by omega, by omega, by omega, ?_, ?_, ?_⟩
  · unfold terminal_putchar
    rw [if_neg (by decide), if_pos rfl, harith]
    dsimp only []
    split_ifs <;> rfl
  · intro hlt
    unfold terminal_putchar
    rw [if_neg (by decide), if_pos rfl, harith]
    dsimp only []
    rw [if_neg (by omega)]
    exact ⟨rfl, rfl, fun i => rfl⟩
  · intro hge
    unfold terminal_putchar
    rw [if_neg (by decide), if_pos rfl, harith]
    dsimp only []
    rw [if_pos (by omega)]
    refine ⟨?_, ?_, ?_⟩
    · split_ifs <;> rfl
    · intro hr1
      rw [if_neg (by omega)]
      exact ⟨rfl, fun i => rfl⟩
    · intro hr1
      rw [if_pos (by omega)]
      exact ⟨rfl, fun i => rfl⟩

theorem C7_tab_witness :
    ((4 * (((5 : Nat)) / 4 + 1)) % 4 = 0 ∧
    (5 : Nat) < 4 * (5 / 4 + 1) ∧
    4 * ((5 : Nat) / 4 + 1) ≤ 5 + 4 ∧
    (terminal_putchar 9 { row := 0, col := 5, color := 7, buf := fun _ => 0 }).1.color = 7) ∧
    (terminal_putchar 9 { row := 0, col := 5, color := 7, buf := fun _ => 0 }).1.col = 8 := by
  have h := C7_tab { row := 0, col := 5, color := 7, buf := fun _ => 0 } (by decide) (by decide)
  exact ⟨⟨h.1, h.2.1, h.2.2.1, h.2.2.2.1⟩, (h.2.2.2.2.1 (by decide)).1⟩

/-- C10: `put_char('\n')` from a state with `row + 1 < HEIGHT` changes no
grid cell; `put_char` of a regular byte (not `\n`, `\t`, `\b`) from a
state where the write does not trigger a scroll changes exactly the cell
at the pre-call cursor position, leaving every other cell and the colour
attribute unchanged. -/
theorem C10_frame (s : TermState) (c : Nat) :
    (s.row + 1 < VGA_HEIGHT → ∀ i, (terminal_putchar 10 s).1.buf i = s.buf i) ∧
    (isRegular c → ¬(s.col + 1 = VGA_WIDTH ∧ s.row + 1 = VGA_HEIGHT) →
      (terminal_putchar c s).1.buf (s.row * VGA_WIDTH + s.col) = vga_entry c s.color ∧
      (∀ i, i ≠ s.row * VGA_WIDTH + s.col → (terminal_putchar c s).1.buf i = s.buf i) ∧
      (terminal_putchar c s).1.color = s.color) := by
  constructor
  · intro hr i
    unfold terminal_putchar
    rw [if_pos rfl]
    dsimp only []
    rw [if_neg (by omega)]
  · intro hreg hns
    obtain ⟨h10, h9, h8⟩ := hreg
    unfold terminal_putchar
    rw [if_neg h10, if_neg h9, if_neg h8]
    dsimp only []
    by_cases hw : s.col + 1 = VGA_WIDTH
    · rw [if_pos hw, if_neg (fun hr => hns ⟨hw, hr⟩)]
      exact ⟨by dsimp only []; rw [if_pos rfl],
             fun i hi => by dsimp only []; rw [if_neg hi], rfl⟩
    · rw [if_neg hw]
      exact ⟨by dsimp only []; rw [if_pos rfl],
             fun i hi => by dsimp only []; rw [if_neg hi], rfl⟩

theorem C10_frame_witness :
    (initState.row + 1 < VGA_HEIGHT →
      ∀ i, (terminal_putchar 10 initState).1.buf i = initState.buf i) ∧
    (isRegular 65 → ¬(initState.col + 1 = VGA_WIDTH ∧ initState.row + 1 = VGA_HEIGHT) →
      (terminal_putchar 65 initState).1.buf (initState.row * VGA_WIDTH + initState.col) =
        vga_entry 65 initState.color ∧
      (∀ i, i ≠ initState.row * VGA_WIDTH + initState.col →
        (terminal_putchar 65 initState).1.buf i = initState.buf i) ∧
      (terminal_putchar 65 initState).1.color = initState.color) :=
  C10_frame initState 65

theorem putchar_regular_step (s : TermState) (c : Nat) (hreg : isRegular c)
    (hc : s.col < VGA_WIDTH)
    (hk : s.row * VGA_WIDTH + s.col + 1 < VGA_HEIGHT * VGA_WIDTH) :
    (terminal_putchar c s).1.row = (s.row * VGA_WIDTH + s.col + 1) / VGA_WIDTH ∧
    (terminal_putchar c s).1.col = (s.row * VGA_WIDTH + s.col + 1) % VGA_WIDTH ∧
    (terminal_putchar c s).1.color = s.color ∧
    ∀ i, (terminal_putchar c s).1.buf i =
      if i = s.row * VGA_WIDTH + s.col then vga_entry c s.color else s.buf i := by
  obtain ⟨h10, h9, h8⟩ := hreg
  simp only [VGA_HEIGHT, VGA_WIDTH] at hc hk ⊢
  unfold terminal_putchar
  rw [if_neg h10, if_neg h9, if_neg h8]
  dsimp only []
  simp only [VGA_HEIGHT, VGA_WIDTH]
  by_cases hw : s.col + 1 = 80
  · rw [if_pos hw, if_neg (by omega)]
    dsimp only []
    refine ⟨by omega, by omega, rfl, fun i => rfl⟩
  · rw [if_neg hw]
    dsimp only []
    refine ⟨by omega, by omega, rfl, fun i => rfl⟩

theorem write_regular_aux : ∀ (cs : List Nat) (s : TermState),
    (∀ c ∈ cs, isRegular c) → s.col < VGA_WIDTH →
    s.row * VGA_WIDTH + s.col + cs.length < VGA_HEIGHT * VGA_WIDTH →
    (terminal_write cs s).row = (s.row * VGA_WIDTH + s.col + cs.length) / VGA_WIDTH ∧
    (terminal_write cs s).col = (s.row * VGA_WIDTH + s.col + cs.length) % VGA_WIDTH ∧
    (terminal_write cs s).color = s.color ∧
    ∀ i, (terminal_write cs s).buf i =
      if s.row * VGA_WIDTH + s.col ≤ i ∧ i < s.row * VGA_WIDTH + s.col + cs.length
      then vga_entry (cs.getD (i - (s.row * VGA_WIDTH + s.col)) 0) s.color
      else s.buf i
  | [], s, _, hc, hk => by
    refine ⟨?_, ?_, rfl, fun i => ?_⟩
    · show s.row = (s.row * VGA_WIDTH + s.col + List.length []) / VGA_WIDTH
      simp only [VGA_WIDTH, List.length_nil] at hc ⊢
      omega
    · show s.col = (s.row * VGA_WIDTH + s.col + List.length []) % VGA_WIDTH
      simp only [VGA_WIDTH, List.length_nil] at hc ⊢
      omega
    · show s.buf i = _
      rw [if_neg (by simp only [VGA_WIDTH, List.length_nil]; omega)]
  | c :: rest, s, hreg, hc, hk => by
    have hstep := putchar_regular_step s c (hreg c (by simp))
      hc (by simp only [VGA_HEIGHT, VGA_WIDTH] at hk ⊢; simp at hk; omega)
    set s1 := (terminal_putchar c s).1 with hs1
    have hflat : s1.row * VGA_WIDTH + s1.col = s.row * VGA_WIDTH + s.col + 1 := by
      rw [hstep.1, hstep.2.1]
      simp only [VGA_HEIGHT, VGA_WIDTH] at hc hk ⊢
      omega
    have hc1 : s1.col < VGA_WIDTH := by
      rw [hstep.2.1]
      simp only [VGA_WIDTH]
      omega
    have hk1 : s1.row * VGA_WIDTH + s1.col + rest.length < VGA_HEIGHT * VGA_WIDTH := by
      rw [hflat]
      simp only [VGA_HEIGHT, VGA_WIDTH] at hk ⊢
      simp at hk
      omega
    have ih := write_regular_aux rest s1 (fun d hd => hreg d (by simp [hd])) hc1 hk1
    have hwr : terminal_write (c :: rest) s = terminal_write rest s1 := by
      simp [terminal_write, hs1]
    rw [hwr]
    rw [hflat] at ih
    refine ⟨?_, ?_, ?_, ?_⟩
    · rw [ih.1]
      simp only [VGA_WIDTH, List.length_cons]
      omega
    · rw [ih.2.1]
      simp only [VGA_WIDTH, List.length_cons]
      omega
    · rw [ih.2.2.1, hstep.2.2.1]
    · intro i
      rw [ih.2.2.2 i, hstep.2.2.1]
      by_cases hin : s.row * VGA_WIDTH + s.col + 1 ≤ i ∧
          i < s.row * VGA_WIDTH + s.col + 1 + rest.length
      · rw [if_pos hin, if_pos (by simp; omega)]
        have hidx : i - (s.row * VGA_WIDTH + s.col) = (i - (s.row * VGA_WIDTH + s.col + 1)) + 1 := by
          omega
        rw [hidx]
        rfl
      · rw [if_neg hin]
        rw [hstep.2.2.2 i]
        by_cases hizero : i = s.row * VGA_WIDTH + s.col
        · rw [if_pos hizero, if_pos (by simp; omega)]
          rw [hizero]
          simp
        · rw [if_neg hizero, if_neg (by simp; omega)]

/-- C4: writing `n < WIDTH*HEIGHT` regular bytes (no `\n`, `\t`, `\b`;
printable characters in particular) from the initialized state puts the
packed cell `pack(character_i, attribute)` at flat index `i` — the cell at
`(i mod WIDTH, i div WIDTH)` — for every `i < n`, and leaves the cursor at
`(n mod WIDTH, n div WIDTH)`. -/
theorem C4_sequential_fill (cs : List Nat) (hreg : ∀ c ∈ cs, isRegular c)
    (hn : cs.length < VGA_WIDTH * VGA_HEIGHT) :
    (terminal_write cs initState).row = cs.length / VGA_WIDTH ∧
    (terminal_write cs initState).col = cs.length % VGA_WIDTH ∧
    ∀ i, i < cs.length →
      (terminal_write cs initState).buf i = vga_entry (cs.getD i 0) default_color := by
  have hk : initState.row * VGA_WIDTH + initState.col + cs.length < VGA_HEIGHT * VGA_WIDTH := by
    have h0 : initState.row * VGA_WIDTH + initState.col = 0 := rfl
    rw [h0]
    simp only [VGA_WIDTH, VGA_HEIGHT] at hn ⊢
    omega
  have h := write_regular_aux cs initState hreg (by decide) hk
  have h0 : initState.row * VGA_WIDTH + initState.col = 0 := rfl
  rw [h0, Nat.zero_add] at h
  refine ⟨h.1, h.2.1, fun i hi => ?_⟩
  rw [h.2.2.2 i, if_pos ⟨Nat.zero_le i, hi⟩, Nat.sub_zero]
  rfl

theorem C4_sequential_fill_witness :
    (terminal_write [104, 105] initState).row = [104, 105].length / VGA_WIDTH ∧
    (terminal_write [104, 105] initState).col = [104, 105].length % VGA_WIDTH ∧
    ∀ i, i < [104, 105].length →
      (terminal_write [104, 105] initState).buf i =
        vga_entry ([104, 105].getD i 0) default_color :=
  C4_sequential_fill [104, 105] (by decide) (by decide)

end OS
